import Mathlib

/-!
Shallow embedding of the hwcomposer backend (hwcomposer.cpp): the composition
planner (hwc_prepare), the blit engine (bitblitLayer) with its hardware fast
path and software fallback loop, the composition executor (hwc_set), and
device open (hwc_device_open).  Machine integers are modelled as Int (the
relevant arithmetic stays far from any overflow in the claims considered);
buffer memory is modelled pixel-indexed as a total function Int -> Int;
external effects (the xylonbb ioctl, eglSwapBuffers, the open syscall,
logging) are modelled as explicit parameters and recorded observations.
-/

namespace Hwc

/-- Constant from the hwcomposer headers (value immaterial to the claims). -/
def HWC_OVERLAY : Int := 1

/-- Constant from the hwcomposer headers: the geometry-changed list flag bit. -/
def HWC_GEOMETRY_CHANGED : Nat := 1

/-- Constant from the hwcomposer headers: status returned when eglSwapBuffers fails. -/
def HWC_EGL_ERROR : Int := -1

/-- Rectangle with left, top, right, bottom pixel coordinates (hwc_rect_t). -/
structure HwcRect where
  left : Int
  top : Int
  right : Int
  bottom : Int
deriving DecidableEq

/-- The fields of private_handle_t read by this core: dma-buf fd, row stride
in pixels, total byte size. -/
structure PrivateHandle where
  fd : Int
  stride : Int
  size : Int
deriving DecidableEq

/-- The fields of hwc_layer_t read by this core. -/
structure HwcLayer where
  compositionType : Int
  handle : Option PrivateHandle
  sourceCrop : HwcRect
  displayFrame : HwcRect
deriving DecidableEq

/-- hwc_layer_list_t: list-level flags and the ordered layers. -/
structure HwcLayerList where
  flags : Nat
  hwLayers : List HwcLayer
deriving DecidableEq

/-- The scaling check of hwc_prepare (lines 89-93): compares displayFrame
width against sourceCrop width and displayFrame top-bottom against
sourceCrop top-bottom. -/
def needsScaling (l : HwcLayer) : Bool :=
  decide ((l.displayFrame.right - l.displayFrame.left)
      ≠ (l.sourceCrop.right - l.sourceCrop.left)) ||
  decide ((l.displayFrame.top - l.displayFrame.bottom)
      ≠ (l.sourceCrop.top - l.sourceCrop.bottom))

/-- The per-layer mutation of hwc_prepare (lines 86-87): layers at index
greater than 0 are forced to HWC_OVERLAY. -/
def planLayer (i : Nat) (l : HwcLayer) : HwcLayer :=
  if 0 < i then { l with compositionType := HWC_OVERLAY } else l

/-- The loop of hwc_prepare applied from a starting index. -/
def planLayersFrom : Nat → List HwcLayer → List HwcLayer
  | _, [] => []
  | i, l :: rest => planLayer i l :: planLayersFrom (i + 1) rest

/-- Observable outcome of hwc_prepare: the mutated layers and, per scanned
layer, whether the needs-scaling diagnostic was emitted. -/
structure PrepareResult where
  hwLayers : List HwcLayer
  scalingDiags : List Bool

/-- hwc_prepare (lines 80-102): scans only when the list has more than one
layer and the geometry-changed flag is set; forces every layer at index
greater than 0 to HWC_OVERLAY and records the scaling diagnostics. -/
def hwc_prepare (list : HwcLayerList) : PrepareResult :=
  if 1 < list.hwLayers.length then
    if list.flags &&& HWC_GEOMETRY_CHANGED ≠ 0 then
      ⟨planLayersFrom 0 list.hwLayers,
       (planLayersFrom 0 list.hwLayers).map needsScaling⟩
    else ⟨list.hwLayers, []⟩
  else ⟨list.hwLayers, []⟩

/-- The scalar geometry bitblitLayer extracts from the two layers and their
handles (lines 113-130). -/
structure BlitGeom where
  surfaceStride : Int
  surfaceSize : Int
  surfaceLeft : Int
  surfaceTop : Int
  displayLeft : Int
  displayTop : Int
  layerStride : Int
  layerSize : Int
  layerLeft : Int
  layerTop : Int
  columns : Int
  rows : Int
deriving DecidableEq

/-- Geometry extraction of bitblitLayer (lines 113-130). -/
def mkGeom (l0 l : HwcLayer) (surfaceHandle layerHandle : PrivateHandle) : BlitGeom :=
  { surfaceStride := surfaceHandle.stride
    surfaceSize := surfaceHandle.size
    surfaceLeft := l0.sourceCrop.left
    surfaceTop := l0.sourceCrop.top
    displayLeft := l.displayFrame.left
    displayTop := l.displayFrame.top
    layerStride := layerHandle.stride
    layerSize := layerHandle.size
    layerLeft := l.sourceCrop.left
    layerTop := l.sourceCrop.top
    columns := l.sourceCrop.right - l.sourceCrop.left
    rows := l.sourceCrop.bottom - l.sourceCrop.top }

/-- Destination pixel index of the software loop (lines 153-154 and 163). -/
def dstOff (g : BlitGeom) (i j : Int) : Int :=
  g.displayLeft + g.surfaceLeft + i + (j + g.displayTop + g.surfaceTop) * g.surfaceStride

/-- Source pixel index of the software loop (lines 158 and 164). -/
def srcOff (g : BlitGeom) (i j : Int) : Int :=
  g.layerLeft + i + (j + g.layerTop) * g.layerStride

/-- Conversion of a value to size_t on the 32-bit platform: reduction
modulo 4294967296 (2 to the 32nd), with the nonnegative representative
(Int.emod with a positive modulus).  The strides are declared size_t
(lines 114 and 125), so the index expressions of lines 153-158 are
computed in unsigned size_t arithmetic, and the size operand of each
comparison is likewise converted to size_t; modular reduction commutes
with the sums and products involved, so reducing the whole mathematical
index expression once is the faithful rendering. -/
def sizeT (x : Int) : Int :=
  x % 4294967296

/-- The two out-of-bounds diagnostics of the software loop. -/
inductive OOBLog where
  | base : OOBLog
  | layer : OOBLog
deriving DecidableEq

/-- State of the software copy loop: the surface buffer contents, the ordered
trace of (i, j) pixels written, the out-of-bounds diagnostics emitted, and
whether the loop has aborted (the early return of lines 156 and 161). -/
structure SWState where
  surf : Int → Int
  trace : List (Int × Int)
  logs : List OOBLog
  aborted : Bool

/-- One iteration of the software loop body (lines 152-165): destination
bound is checked first, then the source bound, using a strict greater-than
comparison, in size_t arithmetic, of the byte offset against the declared
size; on a passed check the pixel is copied.  The store and load of lines
163-164 address base plus four times the index with the same modular
arithmetic, which coincides with addressing at the signed pixel offset, so
the buffer access is modelled at the signed index. -/
def stepPixel (g : BlitGeom) (layerBuf : Int → Int) (st : SWState) (ij : Int × Int) : SWState :=
  if st.aborted then st
  else if sizeT (dstOff g ij.1 ij.2 * 4) > sizeT g.surfaceSize then
    { st with logs := st.logs ++ [OOBLog.base], aborted := true }
  else if sizeT (srcOff g ij.1 ij.2 * 4) > sizeT g.layerSize then
    { st with logs := st.logs ++ [OOBLog.layer], aborted := true }
  else
    { st with
      surf := Function.update st.surf (dstOff g ij.1 ij.2) (layerBuf (srcOff g ij.1 ij.2))
      trace := st.trace ++ [ij] }

/-- The nested software copy loop of lines 151-166: i over columns in the
outer loop, j over rows in the inner loop. -/
def swLoop (g : BlitGeom) (layerBuf : Int → Int) (st : SWState) : SWState :=
  (List.range g.columns.toNat).foldl
    (fun s (i : Nat) => (List.range g.rows.toNat).foldl
      (fun s2 (j : Nat) => stepPixel g layerBuf s2 ((i : Int), (j : Int))) s) st

/-- Initial state of the software loop for a given surface buffer. -/
def initSW (surfBuf : Int → Int) : SWState :=
  ⟨surfBuf, [], [], false⟩

/-- struct xylonbb_params as filled in at lines 136-145. -/
structure XylonbbParams where
  dst_dma_buf : Int
  dst_offset : Int
  dst_stripe : Int
  src_dma_buf : Int
  src_offset : Int
  src_stripe : Int
  num_columns : Int
  num_rows : Int
deriving DecidableEq

/-- The accelerator request record built at lines 138-145. -/
def xylonbbParams (g : BlitGeom) (surfaceHandle layerHandle : PrivateHandle) : XylonbbParams :=
  { dst_dma_buf := surfaceHandle.fd
    dst_offset := 4 * (g.displayLeft + g.surfaceLeft + (g.displayTop + g.surfaceTop) * g.surfaceStride)
    dst_stripe := g.surfaceStride
    src_dma_buf := layerHandle.fd
    src_offset := 4 * (g.layerLeft + g.layerTop * g.layerStride)
    src_stripe := g.layerStride
    num_columns := g.columns
    num_rows := g.rows }

/-- Observable outcome of one bitblitLayer call: the surface buffer after any
software writes, the trace and diagnostics of the software loop, whether a
null-handle early return was taken, and whether the accelerator ioctl was
issued. -/
structure BlitResult where
  surf : Int → Int
  trace : List (Int × Int)
  logs : List OOBLog
  aborted : Bool
  nullHandleSkip : Bool
  ioctlIssued : Bool

/-- bitblitLayer (lines 104-167).  The ioctl is an external collaborator
modelled as a function from the request record to its returned status; the
context bb_fd truthiness test of line 135 is the test against zero. -/
def bitblitLayer (bb_fd : Int) (ioctl : XylonbbParams → Int) (l0 l : HwcLayer)
    (surfBuf layerBuf : Int → Int) : BlitResult :=
  match l0.handle with
  | none => ⟨surfBuf, [], [], false, true, false⟩
  | some surfaceHandle =>
    match l.handle with
    | none => ⟨surfBuf, [], [], false, true, false⟩
    | some layerHandle =>
      let g := mkGeom l0 l surfaceHandle layerHandle
      if bb_fd ≠ 0 then
        if ioctl (xylonbbParams g surfaceHandle layerHandle) = 0 then
          ⟨surfBuf, [], [], false, false, true⟩
        else
          let r := swLoop g layerBuf (initSW surfBuf)
          ⟨r.surf, r.trace, r.logs, r.aborted, false, true⟩
      else
        let r := swLoop g layerBuf (initSW surfBuf)
        ⟨r.surf, r.trace, r.logs, r.aborted, false, false⟩

/-- Observable outcome of hwc_set: the final surface buffer, the results of
the blits performed, how many times the present operation was invoked, and
the returned status. -/
structure SetResult where
  surf : Int → Int
  blits : List BlitResult
  presentCalls : Nat
  status : Int

/-- The loop of hwc_set (lines 180-185): index i over all layers, blitting
every layer at index greater than 0 against layer 0, threading the surface
buffer through successive blits.  layerBufs gives the contents of layer i's
buffer. -/
def runBlits (bb_fd : Int) (ioctl : XylonbbParams → Int) (l0 : HwcLayer)
    (layerBufs : Nat → Int → Int) :
    Nat → List HwcLayer → (Int → Int) → List BlitResult × (Int → Int)
  | _, [], surf => ([], surf)
  | i, l :: rest, surf =>
    if 0 < i then
      let r := bitblitLayer bb_fd ioctl l0 l surf (layerBufs i)
      let t := runBlits bb_fd ioctl l0 layerBufs (i + 1) rest r.surf
      (r :: t.1, t.2)
    else
      runBlits bb_fd ioctl l0 layerBufs (i + 1) rest surf

/-- hwc_set (lines 169-193): blits run only when the list has more than one
layer; eglSwapBuffers is an external collaborator modelled by the Bool
eglOK; the returned status is HWC_EGL_ERROR exactly when it fails. -/
def hwc_set (bb_fd : Int) (ioctl : XylonbbParams → Int) (eglOK : Bool)
    (list : HwcLayerList) (surfBuf : Int → Int) (layerBufs : Nat → Int → Int) : SetResult :=
  let br : List BlitResult × (Int → Int) :=
    if 1 < list.hwLayers.length then
      match list.hwLayers with
      | [] => ([], surfBuf)
      | l0 :: rest => runBlits bb_fd ioctl l0 layerBufs 0 (l0 :: rest) surfBuf
    else ([], surfBuf)
  { surf := br.2
    blits := br.1
    presentCalls := 1
    status := if eglOK then 0 else HWC_EGL_ERROR }

/-- Observable outcome of hwc_device_open. -/
structure OpenResult where
  status : Int
  bb_fd : Int
  opened : Bool

/-- hwc_device_open (lines 206-238): on a matching name the device is
created with bb_fd zeroed by memset, then the result of opening the
accelerator node (openRet, the external open syscall result) is stored into
bb_fd whenever it is nonzero (the line 229 truthiness test), and status 0 is
returned; a non-matching name returns -EINVAL. -/
def hwc_device_open (nameMatches : Bool) (openRet : Int) : OpenResult :=
  if nameMatches then
    { status := 0
      bb_fd := if openRet ≠ 0 then openRet else 0
      opened := true }
  else
    { status := -22
      bb_fd := 0
      opened := false }

/-- The pixel visit order of the software loop: i over columns outermost,
j over rows innermost. -/
def codeOrder (g : BlitGeom) : List (Int × Int) :=
  (List.range g.columns.toNat).flatMap
    (fun (i : Nat) => (List.range g.rows.toNat).map (fun (j : Nat) => ((i : Int), (j : Int))))

/-- The pixel visit order asserted by the specification sentence: row index
outermost, column index i innermost. -/
def claimedOrder (g : BlitGeom) : List (Int × Int) :=
  (List.range g.rows.toNat).flatMap
    (fun (j : Nat) => (List.range g.columns.toNat).map (fun (i : Nat) => ((i : Int), (j : Int))))

/-- Both bounds checks of the loop body pass at this pixel. -/
def pixelOK (g : BlitGeom) (ij : Int × Int) : Bool :=
  decide (sizeT (dstOff g ij.1 ij.2 * 4) ≤ sizeT g.surfaceSize) &&
  decide (sizeT (srcOff g ij.1 ij.2 * 4) ≤ sizeT g.layerSize)

/-- Which diagnostic the loop emits at a failing pixel: the destination
bound is checked first. -/
def failLog (g : BlitGeom) (ij : Int × Int) : OOBLog :=
  if sizeT (dstOff g ij.1 ij.2 * 4) > sizeT g.surfaceSize then OOBLog.base
  else OOBLog.layer

/-- The single-pixel copy performed at an in-bounds pixel. -/
def applyWrite (g : BlitGeom) (layerBuf : Int → Int) (surf : Int → Int)
    (ij : Int × Int) : Int → Int :=
  Function.update surf (dstOff g ij.1 ij.2) (layerBuf (srcOff g ij.1 ij.2))

/-- The software loop flattened over an explicit pixel list. -/
def runPixels (g : BlitGeom) (layerBuf : Int → Int) (st : SWState)
    (L : List (Int × Int)) : SWState :=
  L.foldl (stepPixel g layerBuf) st

theorem stepPixel_aborted (g : BlitGeom) (layerBuf : Int → Int) (st : SWState)
    (ij : Int × Int) (h : st.aborted = true) : stepPixel g layerBuf st ij = st := by
  simp [stepPixel, h]

theorem runPixels_aborted (g : BlitGeom) (layerBuf : Int → Int) (L : List (Int × Int))
    (st : SWState) (h : st.aborted = true) : runPixels g layerBuf st L = st := by
  induction L with
  | nil => rfl
  | cons x t ih =>
    simp only [runPixels, List.foldl_cons, stepPixel_aborted g layerBuf st x h]
    exact ih

/-- Full characterization of the software loop over a pixel list, starting
from an unaborted state: it writes the longest in-bounds prefix, emits the
diagnostic of the first failing pixel if any, and aborts exactly when some
pixel in the list fails a bound. -/
theorem runPixels_spec (g : BlitGeom) (layerBuf : Int → Int) :
    ∀ (L : List (Int × Int)) (st : SWState), st.aborted = false →
    runPixels g layerBuf st L =
      { surf := (L.takeWhile (pixelOK g)).foldl (applyWrite g layerBuf) st.surf
        trace := st.trace ++ L.takeWhile (pixelOK g)
        logs := st.logs ++ ((L.dropWhile (pixelOK g)).head?.map (failLog g)).toList
        aborted := !(L.all (pixelOK g)) } := by
  intro L
  induction L with
  | nil =>
    intro st h
    obtain ⟨surf, trace, logs, aborted⟩ := st
    simp at h
    simp [runPixels, h]
  | cons x t ih =>
    intro st h
    by_cases hd : sizeT (dstOff g x.1 x.2 * 4) > sizeT g.surfaceSize
    · have hok : pixelOK g x = false := by
        simp [pixelOK]
        intro hle
        omega
      have hstep : stepPixel g layerBuf st x =
          { st with logs := st.logs ++ [OOBLog.base], aborted := true } := by
        simp [stepPixel, h, hd]
      have habort : runPixels g layerBuf st (x :: t) =
          { st with logs := st.logs ++ [OOBLog.base], aborted := true } := by
        simp only [runPixels, List.foldl_cons, hstep]
        exact runPixels_aborted g layerBuf t _ rfl
      rw [habort]
      simp [List.takeWhile_cons, List.dropWhile_cons, List.all_cons, hok, failLog, hd]
    · by_cases hs : sizeT (srcOff g x.1 x.2 * 4) > sizeT g.layerSize
      · have hok : pixelOK g x = false := by
          simp [pixelOK]
          intro hle
          omega
        have hstep : stepPixel g layerBuf st x =
            { st with logs := st.logs ++ [OOBLog.layer], aborted := true } := by
          simp [stepPixel, h, hd, hs]
        have habort : runPixels g layerBuf st (x :: t) =
            { st with logs := st.logs ++ [OOBLog.layer], aborted := true } := by
          simp only [runPixels, List.foldl_cons, hstep]
          exact runPixels_aborted g layerBuf t _ rfl
        rw [habort]
        simp [List.takeWhile_cons, List.dropWhile_cons, List.all_cons, hok, failLog, hd, hs]
      · have hok : pixelOK g x = true := by
          simp [pixelOK]
          omega
        have hstep : stepPixel g layerBuf st x =
            { st with surf := applyWrite g layerBuf st.surf x
                      trace := st.trace ++ [x] } := by
          simp [stepPixel, h, hd, hs, applyWrite]
        have hrun : runPixels g layerBuf st (x :: t) =
            runPixels g layerBuf
              { st with surf := applyWrite g layerBuf st.surf x
                        trace := st.trace ++ [x] } t := by
          simp only [runPixels, List.foldl_cons, hstep]
        rw [hrun, ih _ (by simp [h])]
        simp [List.takeWhile_cons, List.dropWhile_cons, List.all_cons, hok,
          List.append_assoc]

/-- Folding a function over a flatMap equals the nested fold. -/
theorem foldl_flatMap {α β γ : Type} (f : γ → List α) (g : β → α → β) :
    ∀ (L : List γ) (b : β),
      (L.flatMap f).foldl g b = L.foldl (fun s c => (f c).foldl g s) b
  | [], _ => rfl
  | c :: t, b => by
    rw [List.flatMap_cons, List.foldl_append, List.foldl_cons,
      foldl_flatMap f g t]

/-- The nested software loop is the flattened loop over codeOrder. -/
theorem swLoop_eq_runPixels (g : BlitGeom) (layerBuf : Int → Int) (st : SWState) :
    swLoop g layerBuf st = runPixels g layerBuf st (codeOrder g) := by
  have h : (fun (s : SWState) (i : Nat) =>
      ((List.range g.rows.toNat).map (fun (j : Nat) => ((i : Int), (j : Int)))).foldl
        (stepPixel g layerBuf) s)
      = (fun (s : SWState) (i : Nat) =>
          (List.range g.rows.toNat).foldl
            (fun s2 (j : Nat) => stepPixel g layerBuf s2 ((i : Int), (j : Int))) s) := by
    funext s i
    rw [List.foldl_map]
  simp only [swLoop, runPixels, codeOrder, foldl_flatMap, h]

/-- Full characterization of the software loop from its initial state. -/
theorem swLoop_spec (g : BlitGeom) (layerBuf surfBuf : Int → Int) :
    swLoop g layerBuf (initSW surfBuf) =
      { surf := ((codeOrder g).takeWhile (pixelOK g)).foldl (applyWrite g layerBuf) surfBuf
        trace := (codeOrder g).takeWhile (pixelOK g)
        logs := (((codeOrder g).dropWhile (pixelOK g)).head?.map (failLog g)).toList
        aborted := !((codeOrder g).all (pixelOK g)) } := by
  rw [swLoop_eq_runPixels, runPixels_spec g layerBuf (codeOrder g) (initSW surfBuf) rfl]
  simp [initSW]

/-- Membership in the code visit order is membership in the region. -/
theorem mem_codeOrder (g : BlitGeom) (ij : Int × Int) :
    ij ∈ codeOrder g ↔ 0 ≤ ij.1 ∧ ij.1 < g.columns ∧ 0 ≤ ij.2 ∧ ij.2 < g.rows := by
  obtain ⟨i, j⟩ := ij
  constructor
  · intro h
    rw [codeOrder, List.mem_flatMap] at h
    obtain ⟨a, ha, h⟩ := h
    rw [List.mem_map] at h
    obtain ⟨b, hb, h⟩ := h
    rw [List.mem_range] at ha
    rw [List.mem_range] at hb
    have ha2 : (a : Int) < g.columns := Int.lt_toNat.mp ha
    have hb2 : (b : Int) < g.rows := Int.lt_toNat.mp hb
    injection h with h1 h2
    subst h1
    subst h2
    exact ⟨Int.ofNat_nonneg a, ha2, Int.ofNat_nonneg b, hb2⟩
  · rintro ⟨h1, h2, h3, h4⟩
    rw [codeOrder, List.mem_flatMap]
    refine ⟨i.toNat, ?_, ?_⟩
    · rw [List.mem_range, Int.lt_toNat, Int.toNat_of_nonneg h1]
      exact h2
    · rw [List.mem_map]
      refine ⟨j.toNat, ?_, ?_⟩
      · rw [List.mem_range, Int.lt_toNat, Int.toNat_of_nonneg h3]
        exact h4
      · rw [Int.toNat_of_nonneg h1, Int.toNat_of_nonneg h3]

theorem takeWhile_of_all {α : Type} (p : α → Bool) :
    ∀ (L : List α), (∀ a ∈ L, p a = true) → L.takeWhile p = L
  | [], _ => rfl
  | x :: t, h => by
    rw [List.takeWhile_cons, if_pos (h x (List.mem_cons_self x t)),
      takeWhile_of_all p t (fun a ha => h a (List.mem_cons_of_mem x ha))]

theorem foldl_applyWrite_notmem (g : BlitGeom) (layerBuf : Int → Int) (d : Int) :
    ∀ (L : List (Int × Int)) (surf : Int → Int),
      (∀ kl ∈ L, dstOff g kl.1 kl.2 ≠ d) →
      L.foldl (applyWrite g layerBuf) surf d = surf d
  | [], _, _ => rfl
  | x :: t, surf, h => by
    rw [List.foldl_cons,
      foldl_applyWrite_notmem g layerBuf d t _ (fun kl hk => h kl (List.mem_cons_of_mem x hk))]
    simp only [applyWrite]
    exact Function.update_noteq (Ne.symm (h x (List.mem_cons_self x t))) _ _

/-- After folding the pixel writes over a list that contains (i, j) and in
which every pixel hitting the same destination cell is (i, j) itself, the
destination cell holds the source value of (i, j). -/
theorem foldl_applyWrite_get (g : BlitGeom) (layerBuf : Int → Int) (i j : Int) :
    ∀ (L : List (Int × Int)) (surf : Int → Int),
      (i, j) ∈ L →
      (∀ kl ∈ L, dstOff g kl.1 kl.2 = dstOff g i j → kl = (i, j)) →
      L.foldl (applyWrite g layerBuf) surf (dstOff g i j) = layerBuf (srcOff g i j)
  | [], _, hmem, _ => absurd hmem (List.not_mem_nil _)
  | x :: t, surf, hmem, huniq => by
    by_cases hmt : (i, j) ∈ t
    · rw [List.foldl_cons]
      exact foldl_applyWrite_get g layerBuf i j t _ hmt
        (fun kl hk => huniq kl (List.mem_cons_of_mem x hk))
    · have hx : x = (i, j) := by
        rcases List.mem_cons.mp hmem with h | h
        · exact h.symm
        · exact absurd h hmt
      subst hx
      rw [List.foldl_cons]
      have hnot : ∀ kl ∈ t, dstOff g kl.1 kl.2 ≠ dstOff g i j := by
        intro kl hk heq
        exact hmt (huniq kl (List.mem_cons_of_mem _ hk) heq ▸ hk)
      rw [foldl_applyWrite_notmem g layerBuf (dstOff g i j) t _ hnot]
      simp only [applyWrite]
      exact Function.update_same _ _ _

theorem flatMap_nil_of {α β : Type} (L : List α) (f : α → List β) (h : ∀ a, f a = []) :
    L.flatMap f = [] := by
  induction L with
  | nil => rfl
  | cons x t ih => rw [List.flatMap_cons, h x, List.nil_append, ih]

/-- An empty or inverted region yields an empty visit order. -/
theorem codeOrder_nil (g : BlitGeom) (h : g.columns ≤ 0 ∨ g.rows ≤ 0) :
    codeOrder g = [] := by
  rcases h with h | h
  · have h2 : g.columns.toNat = 0 := Int.toNat_eq_zero.mpr h
    rw [codeOrder, h2]
    rfl
  · have h2 : g.rows.toNat = 0 := Int.toNat_eq_zero.mpr h
    rw [codeOrder, h2]
    exact flatMap_nil_of _ _ (fun a => rfl)

theorem planLayersFrom_getElem? (k : Nat) (L : List HwcLayer) (n : Nat) :
    (planLayersFrom k L)[n]? = L[n]?.map (planLayer (k + n)) := by
  induction L generalizing k n with
  | nil => simp [planLayersFrom]
  | cons l rest ih =>
    cases n with
    | zero => simp [planLayersFrom]
    | succ m =>
      simp only [planLayersFrom, List.getElem?_cons_succ]
      rw [ih (k + 1) m]
      have h2 : k + 1 + m = k + (m + 1) := by omega
      rw [h2]

theorem needsScaling_planLayer (i : Nat) (l : HwcLayer) :
    needsScaling (planLayer i l) = needsScaling l := by
  rw [planLayer]
  split
  · rfl
  · rfl

/-- Claim C2: for every layer list with length greater than 1 and the
geometry-changed flag set, after plan every entry at index greater than 0
has compositionType HWC_OVERLAY, and entry 0 keeps the compositionType it
arrived with. -/
theorem C2_overlay_claim (list : HwcLayerList)
    (hlen : 1 < list.hwLayers.length)
    (hgeo : list.flags &&& HWC_GEOMETRY_CHANGED ≠ 0) :
    (∀ i : Nat, 0 < i →
      (hwc_prepare list).hwLayers[i]?.map (fun l => l.compositionType) =
        list.hwLayers[i]?.map (fun _ => HWC_OVERLAY)) ∧
    (hwc_prepare list).hwLayers[0]?.map (fun l => l.compositionType) =
      list.hwLayers[0]?.map (fun l => l.compositionType) := by
  simp only [hwc_prepare]
  rw [if_pos hlen, if_pos hgeo]
  constructor
  · intro i hi
    rw [planLayersFrom_getElem? 0 list.hwLayers i]
    cases h : list.hwLayers[i]? with
    | none => rfl
    | some l => simp [planLayer, hi]
  · rw [planLayersFrom_getElem? 0 list.hwLayers 0]
    cases h : list.hwLayers[0]? with
    | none => rfl
    | some l => simp [planLayer]

def w2Rect : HwcRect := ⟨0, 0, 4, 4⟩

def w2a : HwcLayer := ⟨0, none, w2Rect, w2Rect⟩

def w2b : HwcLayer := ⟨0, none, w2Rect, w2Rect⟩

def w2List : HwcLayerList := ⟨1, [w2a, w2b]⟩

theorem C2_overlay_claim_witness :
    (1 < w2List.hwLayers.length ∧ w2List.flags &&& HWC_GEOMETRY_CHANGED ≠ 0) ∧
    (hwc_prepare w2List).hwLayers[1]?.map (fun l => l.compositionType) =
      w2List.hwLayers[1]?.map (fun _ => HWC_OVERLAY) :=
  ⟨⟨by decide, by decide⟩,
   (C2_overlay_claim w2List (by decide) (by decide)).1 1 (by decide)⟩

/-- Claim C7: when plan scans a layer (list longer than one layer,
geometry-changed set), a scaling diagnostic is emitted for that layer
exactly when the displayFrame width differs from the sourceCrop width or
the displayFrame height differs from the sourceCrop height. -/
theorem C7_scaling_detection (list : HwcLayerList)
    (hlen : 1 < list.hwLayers.length)
    (hgeo : list.flags &&& HWC_GEOMETRY_CHANGED ≠ 0)
    (i : Nat) (l : HwcLayer) (hl : list.hwLayers[i]? = some l) :
    ((hwc_prepare list).scalingDiags[i]? = some true ↔
      ((l.displayFrame.right - l.displayFrame.left
          ≠ l.sourceCrop.right - l.sourceCrop.left) ∨
       (l.displayFrame.bottom - l.displayFrame.top
          ≠ l.sourceCrop.bottom - l.sourceCrop.top))) := by
  simp only [hwc_prepare]
  rw [if_pos hlen, if_pos hgeo]
  simp only [List.getElem?_map]
  rw [planLayersFrom_getElem? 0 list.hwLayers i, hl]
  simp only [Option.map_some', needsScaling_planLayer, Option.some.injEq]
  rw [needsScaling]
  simp only [Bool.or_eq_true, decide_eq_true_eq]
  constructor
  · rintro (h | h)
    · exact Or.inl h
    · exact Or.inr (by omega)
  · rintro (h | h)
    · exact Or.inl h
    · exact Or.inr (by omega)

def w7a : HwcLayer := ⟨0, none, ⟨0, 0, 4, 4⟩, ⟨0, 0, 4, 4⟩⟩

def w7b : HwcLayer := ⟨0, none, ⟨0, 0, 5, 4⟩, ⟨0, 0, 4, 4⟩⟩

def w7List : HwcLayerList := ⟨1, [w7a, w7b]⟩

theorem C7_scaling_detection_witness :
    (1 < w7List.hwLayers.length ∧ w7List.flags &&& HWC_GEOMETRY_CHANGED ≠ 0 ∧
      w7List.hwLayers[1]? = some w7b) ∧
    ((hwc_prepare w7List).scalingDiags[1]? = some true ↔
      ((w7b.displayFrame.right - w7b.displayFrame.left
          ≠ w7b.sourceCrop.right - w7b.sourceCrop.left) ∨
       (w7b.displayFrame.bottom - w7b.displayFrame.top
          ≠ w7b.sourceCrop.bottom - w7b.sourceCrop.top))) :=
  ⟨⟨by decide, by decide, by decide⟩,
   C7_scaling_detection w7List (by decide) (by decide) 1 w7b (by decide)⟩

/-- Claim C5: execute returns the hardware-error status exactly when the
present operation fails; the returned status does not depend on the blits
(the accelerator, the buffers, the layer list). -/
theorem C5_present_failure (bb_fd : Int) (ioctl : XylonbbParams → Int) (eglOK : Bool)
    (list : HwcLayerList) (surfBuf : Int → Int) (layerBufs : Nat → Int → Int) :
    ((hwc_set bb_fd ioctl eglOK list surfBuf layerBufs).status ≠ 0 ↔ eglOK = false) ∧
    (hwc_set bb_fd ioctl eglOK list surfBuf layerBufs).status =
      (if eglOK then 0 else HWC_EGL_ERROR) := by
  cases eglOK <;> simp [hwc_set, HWC_EGL_ERROR]

/-- Claim C9: for every layer list with at most one layer, plan leaves every
layer unchanged and execute performs zero blits while invoking the present
operation exactly once and returning its mapped status. -/
theorem C9_single_layer (bb_fd : Int) (ioctl : XylonbbParams → Int) (eglOK : Bool)
    (list : HwcLayerList) (surfBuf : Int → Int) (layerBufs : Nat → Int → Int)
    (hlen : list.hwLayers.length ≤ 1) :
    (hwc_prepare list).hwLayers = list.hwLayers ∧
    (hwc_set bb_fd ioctl eglOK list surfBuf layerBufs).blits = [] ∧
    (hwc_set bb_fd ioctl eglOK list surfBuf layerBufs).presentCalls = 1 ∧
    (hwc_set bb_fd ioctl eglOK list surfBuf layerBufs).status =
      (if eglOK then 0 else HWC_EGL_ERROR) := by
  have h : ¬ (1 < list.hwLayers.length) := by omega
  refine ⟨?_, ?_, rfl, rfl⟩
  · simp only [hwc_prepare]
    rw [if_neg h]
  · simp only [hwc_set]
    rw [if_neg h]

def w9a : HwcLayer := ⟨0, none, ⟨0, 0, 4, 4⟩, ⟨0, 0, 4, 4⟩⟩

def w9List : HwcLayerList := ⟨1, [w9a]⟩

theorem C9_single_layer_witness :
    w9List.hwLayers.length ≤ 1 ∧
    ((hwc_prepare w9List).hwLayers = w9List.hwLayers ∧
     (hwc_set 0 (fun _ => -1) true w9List (fun _ => 0) (fun _ _ => 0)).blits = [] ∧
     (hwc_set 0 (fun _ => -1) true w9List (fun _ => 0) (fun _ _ => 0)).presentCalls = 1 ∧
     (hwc_set 0 (fun _ => -1) true w9List (fun _ => 0) (fun _ _ => 0)).status =
       (if true then 0 else HWC_EGL_ERROR)) :=
  ⟨by decide,
   C9_single_layer 0 (fun _ => -1) true w9List (fun _ => 0) (fun _ _ => 0) (by decide)⟩

/-- Unfolding of bitblitLayer when both layers carry buffer handles. -/
theorem bitblitLayer_some (bb_fd : Int) (ioctl : XylonbbParams → Int) (l0 l : HwcLayer)
    (sh lh : PrivateHandle) (surfBuf layerBuf : Int → Int)
    (h0 : l0.handle = some sh) (h1 : l.handle = some lh) :
    bitblitLayer bb_fd ioctl l0 l surfBuf layerBuf =
      (if bb_fd ≠ 0 then
         if ioctl (xylonbbParams (mkGeom l0 l sh lh) sh lh) = 0 then
           ⟨surfBuf, [], [], false, false, true⟩
         else
           ⟨(swLoop (mkGeom l0 l sh lh) layerBuf (initSW surfBuf)).surf,
            (swLoop (mkGeom l0 l sh lh) layerBuf (initSW surfBuf)).trace,
            (swLoop (mkGeom l0 l sh lh) layerBuf (initSW surfBuf)).logs,
            (swLoop (mkGeom l0 l sh lh) layerBuf (initSW surfBuf)).aborted, false, true⟩
       else
         ⟨(swLoop (mkGeom l0 l sh lh) layerBuf (initSW surfBuf)).surf,
          (swLoop (mkGeom l0 l sh lh) layerBuf (initSW surfBuf)).trace,
          (swLoop (mkGeom l0 l sh lh) layerBuf (initSW surfBuf)).logs,
          (swLoop (mkGeom l0 l sh lh) layerBuf (initSW surfBuf)).aborted, false, false⟩) := by
  unfold bitblitLayer
  rw [h0, h1]

/-- Claim C4: when the accelerator channel is available and the block
transfer request reports status 0, the blit completes without the software
copy loop writing anything: the trace is empty and the surface buffer is
untouched by the core. -/
theorem C4_fast_path (bb_fd : Int) (ioctl : XylonbbParams → Int) (l0 l : HwcLayer)
    (surfBuf layerBuf : Int → Int)
    (hbb : bb_fd ≠ 0) (hio : ∀ p, ioctl p = 0) :
    (bitblitLayer bb_fd ioctl l0 l surfBuf layerBuf).trace = [] ∧
    (bitblitLayer bb_fd ioctl l0 l surfBuf layerBuf).surf = surfBuf := by
  cases h0 : l0.handle with
  | none =>
    unfold bitblitLayer
    rw [h0]
    exact ⟨rfl, rfl⟩
  | some sh =>
    cases h1 : l.handle with
    | none =>
      unfold bitblitLayer
      rw [h0, h1]
      exact ⟨rfl, rfl⟩
    | some lh =>
      rw [bitblitLayer_some bb_fd ioctl l0 l sh lh surfBuf layerBuf h0 h1,
        if_pos hbb, if_pos (hio _)]
      exact ⟨rfl, rfl⟩

def w4SH : PrivateHandle := ⟨3, 8, 1000⟩

def w4LH : PrivateHandle := ⟨4, 8, 1000⟩

def w4L0 : HwcLayer := ⟨0, some w4SH, ⟨0, 0, 8, 8⟩, ⟨0, 0, 8, 8⟩⟩

def w4L : HwcLayer := ⟨0, some w4LH, ⟨0, 0, 2, 2⟩, ⟨0, 0, 2, 2⟩⟩

theorem C4_fast_path_witness :
    ((1 : Int) ≠ 0 ∧ ∀ p, (fun (_ : XylonbbParams) => (0 : Int)) p = 0) ∧
    (bitblitLayer 1 (fun _ => 0) w4L0 w4L (fun _ => 0) (fun k => k)).trace = [] ∧
    (bitblitLayer 1 (fun _ => 0) w4L0 w4L (fun _ => 0) (fun k => k)).surf = (fun _ => 0) :=
  ⟨⟨by decide, fun p => rfl⟩,
   C4_fast_path 1 (fun _ => 0) w4L0 w4L (fun _ => 0) (fun k => k) (by decide) (fun p => rfl)⟩

/-- Claim C10: a blit whose source layer has an empty or inverted sourceCrop
and both handles present performs zero software reads and writes, leaves
the destination buffer untouched by the software path, and emits no
out-of-bounds diagnostic. -/
theorem C10_empty_crop (bb_fd : Int) (ioctl : XylonbbParams → Int) (l0 l : HwcLayer)
    (sh lh : PrivateHandle) (surfBuf layerBuf : Int → Int)
    (h0 : l0.handle = some sh) (h1 : l.handle = some lh)
    (hcrop : l.sourceCrop.right ≤ l.sourceCrop.left ∨
             l.sourceCrop.bottom ≤ l.sourceCrop.top) :
    (bitblitLayer bb_fd ioctl l0 l surfBuf layerBuf).trace = [] ∧
    (bitblitLayer bb_fd ioctl l0 l surfBuf layerBuf).surf = surfBuf ∧
    (bitblitLayer bb_fd ioctl l0 l surfBuf layerBuf).logs = [] := by
  have hnil : codeOrder (mkGeom l0 l sh lh) = [] := by
    apply codeOrder_nil
    rcases hcrop with h | h
    · exact Or.inl (by simp only [mkGeom]; omega)
    · exact Or.inr (by simp only [mkGeom]; omega)
  have hsw : swLoop (mkGeom l0 l sh lh) layerBuf (initSW surfBuf) = initSW surfBuf := by
    rw [swLoop_eq_runPixels, hnil]
    rfl
  rw [bitblitLayer_some bb_fd ioctl l0 l sh lh surfBuf layerBuf h0 h1]
  by_cases hbb : bb_fd ≠ 0
  · rw [if_pos hbb]
    by_cases hio : ioctl (xylonbbParams (mkGeom l0 l sh lh) sh lh) = 0
    · rw [if_pos hio]
      exact ⟨rfl, rfl, rfl⟩
    · rw [if_neg hio, hsw]
      exact ⟨rfl, rfl, rfl⟩
  · rw [if_neg hbb, hsw]
    exact ⟨rfl, rfl, rfl⟩

def w10SH : PrivateHandle := ⟨3, 8, 1000⟩

def w10LH : PrivateHandle := ⟨4, 8, 1000⟩

def w10L0 : HwcLayer := ⟨0, some w10SH, ⟨0, 0, 8, 8⟩, ⟨0, 0, 8, 8⟩⟩

def w10L : HwcLayer := ⟨0, some w10LH, ⟨5, 0, 5, 2⟩, ⟨0, 0, 0, 2⟩⟩

theorem C10_empty_crop_witness :
    (w10L0.handle = some w10SH ∧ w10L.handle = some w10LH ∧
      (w10L.sourceCrop.right ≤ w10L.sourceCrop.left ∨
       w10L.sourceCrop.bottom ≤ w10L.sourceCrop.top)) ∧
    (bitblitLayer 0 (fun _ => -1) w10L0 w10L (fun _ => 0) (fun k => k)).trace = [] ∧
    (bitblitLayer 0 (fun _ => -1) w10L0 w10L (fun _ => 0) (fun k => k)).surf = (fun _ => 0) ∧
    (bitblitLayer 0 (fun _ => -1) w10L0 w10L (fun _ => 0) (fun k => k)).logs = [] :=
  ⟨⟨by decide, by decide, Or.inl (by decide)⟩,
   C10_empty_crop 0 (fun _ => -1) w10L0 w10L w10SH w10LH (fun _ => 0) (fun k => k)
     (by decide) (by decide) (Or.inl (by decide))⟩

def c1SH : PrivateHandle := ⟨3, 1, 0⟩

def c1LH : PrivateHandle := ⟨4, 1, 100⟩

def c1L0 : HwcLayer := ⟨0, some c1SH, ⟨0, 0, 1, 1⟩, ⟨0, 0, 1, 1⟩⟩

def c1L : HwcLayer := ⟨0, some c1LH, ⟨0, 0, 1, 1⟩, ⟨0, 0, 1, 1⟩⟩

/-- Claim C1 fails on the code: the bounds checks of lines 153-158 compare
the byte offset with a strict greater-than against the declared size, so a
pixel whose byte offset is exactly equal to the size passes the check and
is dereferenced.  With a destination buffer of declared size 0 and a 1 by 1
region at the origin (last pixel byte offset 0, which is at or beyond the
size), the software path still performs one write, and the dereferenced
offset does not satisfy offset times pixel width strictly less than size. -/
theorem C1_bounds_check_off_by_one :
    (bitblitLayer 0 (fun _ => -1) c1L0 c1L (fun _ => 0) (fun _ => 7)).trace = [(0, 0)] ∧
    (bitblitLayer 0 (fun _ => -1) c1L0 c1L (fun _ => 0) (fun _ => 7)).surf 0 = 7 ∧
    dstOff (mkGeom c1L0 c1L c1SH c1LH) 0 0 * 4 = c1SH.size ∧
    ¬ (dstOff (mkGeom c1L0 c1L c1SH c1LH) 0 0 * 4 < c1SH.size) := by
  refine ⟨by decide, by decide, by decide, by decide⟩

def c8SH : PrivateHandle := ⟨3, 1, 100⟩

def c8LH : PrivateHandle := ⟨4, 1, 100⟩

def c8L0 : HwcLayer := ⟨0, some c8SH, ⟨0, 0, 1, 1⟩, ⟨0, 0, 1, 1⟩⟩

def c8L : HwcLayer := ⟨0, some c8LH, ⟨0, 0, 1, 1⟩, ⟨0, 0, 1, 1⟩⟩

/-- Claim C8 fails on the code: when opening the accelerator node fails
(the open syscall returns -1), device open still succeeds, but line 229
stores the failure value -1 into bb_fd because it only excludes 0, and the
line 135 test then sees a nonzero bb_fd, so a subsequent blit still issues
the accelerator request instead of proceeding directly to the software
copy. -/
theorem C8_open_failure_still_issues_ioctl :
    (hwc_device_open true (-1)).status = 0 ∧
    (hwc_device_open true (-1)).bb_fd = -1 ∧
    (bitblitLayer (hwc_device_open true (-1)).bb_fd (fun _ => -1) c8L0 c8L
      (fun _ => 0) (fun _ => 0)).ioctlIssued = true := by
  refine ⟨by decide, by decide, by decide⟩

def c6SH : PrivateHandle := ⟨3, 10, 1000⟩

def c6LH : PrivateHandle := ⟨4, 10, 1000⟩

def c6L0 : HwcLayer := ⟨0, some c6SH, ⟨0, 0, 8, 8⟩, ⟨0, 0, 8, 8⟩⟩

def c6L : HwcLayer := ⟨0, some c6LH, ⟨0, 0, 2, 2⟩, ⟨0, 0, 2, 2⟩⟩

/-- Claim C6 fails on the code regarding the iteration order: the software
loop of line 151 iterates the column index i in the OUTER loop and the row
index j in the inner loop, so on an in-bounds 2 by 2 region the visit trace
is (0,0),(0,1),(1,0),(1,1), which differs from the i-innermost,
row-outermost order (0,0),(1,0),(0,1),(1,1) asserted by the claim. -/
theorem C6_counterexample_order :
    (bitblitLayer 0 (fun _ => -1) c6L0 c6L (fun _ => 0) (fun k => k)).trace ≠
      claimedOrder (mkGeom c6L0 c6L c6SH c6LH) := by decide

/-- Claim C6 amended: the software fallback copies one pixel at a time with
the column index i outermost and the row index j innermost (each column is
fully traversed before the next); it aborts the entire blit at the first
pixel that fails a bounds check, the destination bound being checked before
the source bound, and the buffer receives exactly the writes of the pixels
visited before the failure — the rest of the region is left unfilled. -/
theorem C6_amended_order_and_abort (g : BlitGeom) (layerBuf surfBuf : Int → Int) :
    (swLoop g layerBuf (initSW surfBuf)).trace = (codeOrder g).takeWhile (pixelOK g) ∧
    (swLoop g layerBuf (initSW surfBuf)).aborted = !((codeOrder g).all (pixelOK g)) ∧
    (swLoop g layerBuf (initSW surfBuf)).logs =
      (((codeOrder g).dropWhile (pixelOK g)).head?.map (failLog g)).toList ∧
    (swLoop g layerBuf (initSW surfBuf)).surf =
      ((codeOrder g).takeWhile (pixelOK g)).foldl (applyWrite g layerBuf) surfBuf := by
  rw [swLoop_spec]
  exact ⟨rfl, rfl, rfl, rfl⟩

def c3SH : PrivateHandle := ⟨3, 1, 1000⟩

def c3LH : PrivateHandle := ⟨4, 10, 1000⟩

def c3L0 : HwcLayer := ⟨0, some c3SH, ⟨0, 0, 8, 8⟩, ⟨0, 0, 8, 8⟩⟩

def c3L : HwcLayer := ⟨0, some c3LH, ⟨0, 0, 2, 2⟩, ⟨0, 0, 2, 2⟩⟩

/-- Claim C3 fails on the code as universally stated: when two distinct
pixels of the region map to the same destination cell (here a destination
stride of 1 under a 2 by 2 region, with the channel absent, both handles
present and every computed offset within its buffer size), the later pixel
overwrites the earlier one, so the final destination value at the cell of
pixel (0,1) is the source value of pixel (1,0) rather than that of (0,1). -/
theorem C3_counterexample_overlap :
    (bitblitLayer 0 (fun _ => -1) c3L0 c3L (fun _ => 0) (fun k => k)).surf
        (dstOff (mkGeom c3L0 c3L c3SH c3LH) 0 1) ≠
      (fun (k : Int) => k) (srcOff (mkGeom c3L0 c3L c3SH c3LH) 0 1) := by
  decide

/-- Claim C3 amended: with the additional hypothesis that distinct pixels of
the region map to distinct destination cells, whenever the channel is
absent or the accelerator request fails, both handles are present, every
computed offset is within its buffer size (nonnegative and, times the
pixel width, below the declared size) and the declared sizes fit in
size_t, the software loop produces a byte-correct copy honoring the
independent strides. -/
theorem C3_amended_software_copy (bb_fd : Int) (ioctl : XylonbbParams → Int)
    (l0 l : HwcLayer) (sh lh : PrivateHandle) (surfBuf layerBuf : Int → Int)
    (h0 : l0.handle = some sh) (h1 : l.handle = some lh)
    (hsw : bb_fd = 0 ∨ ioctl (xylonbbParams (mkGeom l0 l sh lh) sh lh) ≠ 0)
    (hdsz : sh.size < 4294967296) (hlsz : lh.size < 4294967296)
    (hbounds : ∀ i j : Int, 0 ≤ i → i < (mkGeom l0 l sh lh).columns →
      0 ≤ j → j < (mkGeom l0 l sh lh).rows →
      0 ≤ dstOff (mkGeom l0 l sh lh) i j ∧
      dstOff (mkGeom l0 l sh lh) i j * 4 < sh.size ∧
      0 ≤ srcOff (mkGeom l0 l sh lh) i j ∧
      srcOff (mkGeom l0 l sh lh) i j * 4 < lh.size)
    (hinj : ∀ i j u v : Int, 0 ≤ i → i < (mkGeom l0 l sh lh).columns →
      0 ≤ j → j < (mkGeom l0 l sh lh).rows →
      0 ≤ u → u < (mkGeom l0 l sh lh).columns →
      0 ≤ v → v < (mkGeom l0 l sh lh).rows →
      dstOff (mkGeom l0 l sh lh) i j = dstOff (mkGeom l0 l sh lh) u v →
      i = u ∧ j = v)
    (i j : Int) (hi0 : 0 ≤ i) (hic : i < (mkGeom l0 l sh lh).columns)
    (hj0 : 0 ≤ j) (hjr : j < (mkGeom l0 l sh lh).rows) :
    (bitblitLayer bb_fd ioctl l0 l surfBuf layerBuf).surf
      (dstOff (mkGeom l0 l sh lh) i j) = layerBuf (srcOff (mkGeom l0 l sh lh) i j) := by
  have hallok : ∀ kl ∈ codeOrder (mkGeom l0 l sh lh),
      pixelOK (mkGeom l0 l sh lh) kl = true := by
    intro kl hk
    have hm := (mem_codeOrder _ kl).mp hk
    obtain ⟨hb1, hb2, hb3, hb4⟩ := hbounds kl.1 kl.2 hm.1 hm.2.1 hm.2.2.1 hm.2.2.2
    have hs1 : (mkGeom l0 l sh lh).surfaceSize = sh.size := rfl
    have hs2 : (mkGeom l0 l sh lh).layerSize = lh.size := rfl
    have e1 : sizeT (dstOff (mkGeom l0 l sh lh) kl.1 kl.2 * 4) =
        dstOff (mkGeom l0 l sh lh) kl.1 kl.2 * 4 :=
      Int.emod_eq_of_lt (by omega) (by omega)
    have e2 : sizeT (srcOff (mkGeom l0 l sh lh) kl.1 kl.2 * 4) =
        srcOff (mkGeom l0 l sh lh) kl.1 kl.2 * 4 :=
      Int.emod_eq_of_lt (by omega) (by omega)
    have e3 : sizeT sh.size = sh.size := Int.emod_eq_of_lt (by omega) (by omega)
    have e4 : sizeT lh.size = lh.size := Int.emod_eq_of_lt (by omega) (by omega)
    rw [pixelOK]
    simp only [Bool.and_eq_true, decide_eq_true_eq, hs1, hs2, e1, e2, e3, e4]
    constructor
    · omega
    · omega
  have hres : (bitblitLayer bb_fd ioctl l0 l surfBuf layerBuf).surf =
      (swLoop (mkGeom l0 l sh lh) layerBuf (initSW surfBuf)).surf := by
    rw [bitblitLayer_some bb_fd ioctl l0 l sh lh surfBuf layerBuf h0 h1]
    rcases hsw with h | h
    · rw [if_neg (not_not_intro h)]
    · by_cases hbb : bb_fd ≠ 0
      · rw [if_pos hbb, if_neg h]
      · rw [if_neg hbb]
  rw [hres, swLoop_spec]
  rw [takeWhile_of_all _ _ hallok]
  exact foldl_applyWrite_get (mkGeom l0 l sh lh) layerBuf i j
    (codeOrder (mkGeom l0 l sh lh)) surfBuf
    ((mem_codeOrder _ (i, j)).mpr ⟨hi0, hic, hj0, hjr⟩)
    (fun kl hk heq => by
      have hm := (mem_codeOrder _ kl).mp hk
      have he := hinj kl.1 kl.2 i j hm.1 hm.2.1 hm.2.2.1 hm.2.2.2 hi0 hic hj0 hjr heq
      exact Prod.ext he.1 he.2)

def w3SH : PrivateHandle := ⟨3, 10, 1000⟩

def w3LH : PrivateHandle := ⟨4, 10, 1000⟩

def w3L0 : HwcLayer := ⟨0, some w3SH, ⟨0, 0, 8, 8⟩, ⟨0, 0, 8, 8⟩⟩

def w3L : HwcLayer := ⟨0, some w3LH, ⟨0, 0, 2, 2⟩, ⟨0, 0, 2, 2⟩⟩

theorem C3_amended_software_copy_witness :
    (w3L0.handle = some w3SH ∧ w3L.handle = some w3LH ∧ (0 : Int) = 0) ∧
    (bitblitLayer 0 (fun _ => -1) w3L0 w3L (fun _ => 0) (fun k => k)).surf
        (dstOff (mkGeom w3L0 w3L w3SH w3LH) 1 1) =
      (fun (k : Int) => k) (srcOff (mkGeom w3L0 w3L w3SH w3LH) 1 1) := by
  have hbounds : ∀ i j : Int, 0 ≤ i → i < (mkGeom w3L0 w3L w3SH w3LH).columns →
      0 ≤ j → j < (mkGeom w3L0 w3L w3SH w3LH).rows →
      0 ≤ dstOff (mkGeom w3L0 w3L w3SH w3LH) i j ∧
      dstOff (mkGeom w3L0 w3L w3SH w3LH) i j * 4 < w3SH.size ∧
      0 ≤ srcOff (mkGeom w3L0 w3L w3SH w3LH) i j ∧
      srcOff (mkGeom w3L0 w3L w3SH w3LH) i j * 4 < w3LH.size := by
    intro i j h1 h2 h3 h4
    simp only [mkGeom, dstOff, srcOff, w3L0, w3L, w3SH, w3LH] at h2 h4 ⊢
    omega
  have hinj : ∀ i j u v : Int, 0 ≤ i → i < (mkGeom w3L0 w3L w3SH w3LH).columns →
      0 ≤ j → j < (mkGeom w3L0 w3L w3SH w3LH).rows →
      0 ≤ u → u < (mkGeom w3L0 w3L w3SH w3LH).columns →
      0 ≤ v → v < (mkGeom w3L0 w3L w3SH w3LH).rows →
      dstOff (mkGeom w3L0 w3L w3SH w3LH) i j = dstOff (mkGeom w3L0 w3L w3SH w3LH) u v →
      i = u ∧ j = v := by
    intro i j u v h1 h2 h3 h4 h5 h6 h7 h8 heq
    simp only [mkGeom, dstOff, w3L0, w3L, w3SH, w3LH] at h2 h4 h6 h8 heq
    omega
  exact ⟨⟨rfl, rfl, rfl⟩,
    C3_amended_software_copy 0 (fun _ => -1) w3L0 w3L w3SH w3LH (fun _ => 0) (fun k => k)
      rfl rfl (Or.inl rfl) (by decide) (by decide) hbounds hinj
      1 1 (by decide) (by decide) (by decide) (by decide)⟩

end Hwc

